import Mathlib

/-!
Verification development for the flight-search repository: a shallow
embedding of the airport directory cache (both service variants found in
the source: `airports/services.py` and `airports/cache_service.py`), the
leg normalizer, the itinerary combination engine and the haversine
distance function, together with theorems settling the specification
claims about them.

Conventions of the embedding:
* Python values stored in the cache are modelled by the inductive `PyVal`
  (strings, numbers, dicts, and JSON-serialized values); Python truthiness
  is `PyVal.truthy`.
* The cache store is an association list of key, value and ttl; each
  primitive store call (`cache.get` / `cache.set` / `cache.set_many`)
  consumes the head of an outcome schedule, so that store failures
  (a `False` return or a raised exception) at any point of an operation
  can be quantified over.  The empty schedule is the honest store: every
  primitive succeeds.
* Exceptions are `PyResult.exn`; `try`/`except` blocks in the source are
  translated to matches that map `exn` to the function's sentinel.
* Python floats are idealized as rationals; `round` is round-half-to-even
  as in Python 3.
-/

/-- Result of running a fragment of Python code: a value, or a raised
exception. -/
inductive PyResult (α : Type) where
  | ok (a : α)
  | exn
deriving DecidableEq, Repr

/-- A Python value as stored in the cache: a string, a number, a dict
(modelled as an association list, as all dict keys in the source are
strings), or the JSON serialization of a value (`json.dumps(v)` — kept
symbolic, with its concrete text given by `dumps`). -/
inductive PyVal where
  | str (s : String)
  | num (q : Rat)
  | dict (entries : List (String × PyVal))
  | jsonOf (v : PyVal)

mutual

/-- The text of `json.dumps` for a `PyVal` (used to decide truthiness of a
serialized value; it is never empty for any input, mirroring Python). -/
def dumps : PyVal → String
  | .str s => "\"" ++ s ++ "\""
  | .num q => toString q.num ++ "/" ++ toString q.den
  | .jsonOf v => "\"" ++ dumps v ++ "\""
  | .dict l => "\x7b" ++ dumpsEntries l ++ "\x7d"

/-- The body text of a serialized dict. -/
def dumpsEntries : List (String × PyVal) → String
  | [] => ""
  | (k, v) :: rest => "\"" ++ k ++ "\": " ++ dumps v ++ dumpsEntries rest

end

/-- Python truthiness of a value: empty strings, zero and empty dicts are
falsy; a serialized value is a string, truthy iff its text is non-empty. -/
def PyVal.truthy : PyVal → Bool
  | .str s => !s.isEmpty
  | .num q => !(q == 0)
  | .dict l => !l.isEmpty
  | .jsonOf v => !(dumps v).isEmpty

/-- Truthiness of `cache.get`'s result (`None` is falsy). -/
def truthyOpt : Option PyVal → Bool
  | none => false
  | some v => v.truthy

/-- Whether the character list `sub` is a prefix of `l`. -/
def prefixOfChars : List Char → List Char → Bool
  | [], _ => true
  | _ :: _, [] => false
  | a :: as, b :: bs => a == b && prefixOfChars as bs

/-- Whether the character list `sub` occurs inside `l` (Python substring
membership). -/
def hasSubChars (sub : List Char) : List Char → Bool
  | [] => sub.isEmpty
  | b :: bs => prefixOfChars sub (b :: bs) || hasSubChars sub bs

/-- The Python expression `k in v`: key membership for dicts, substring
membership for strings; `none` when it raises (`in` on a number). -/
def pyContains (v : PyVal) (k : String) : Option Bool :=
  match v with
  | .dict l => some (l.any (fun kv => kv.1 == k))
  | .str s => some (hasSubChars k.data s.data)
  | .jsonOf w => some (hasSubChars k.data (dumps w).data)
  | .num _ => none

/-- The Python expression `v[k]`: dict indexing; `none` when it raises
(subscripting a non-dict with a string key, or a missing key). -/
def pyIndex (v : PyVal) (k : String) : Option PyVal :=
  match v with
  | .dict l => l.lookup k
  | _ => none

/-- `json.loads` applied to a cached value: succeeds exactly on a
serialized value and recovers it; anything else raises (`none`). -/
def loads : PyVal → Option PyVal
  | .jsonOf v => some v
  | _ => none

/-- Python `str.upper` (ASCII, as IATA codes are ASCII). -/
def pyUpper (s : String) : String := String.mk (s.data.map Char.toUpper)

/-- Python `str.strip`: drop whitespace from both ends. -/
def pyStrip (s : String) : String :=
  String.mk (((s.data.dropWhile Char.isWhitespace).reverse.dropWhile
    Char.isWhitespace).reverse)

/-- The code normalization performed by `get_airport_by_iata`:
`iata.upper().strip()`. -/
def normIata (s : String) : String := pyStrip (pyUpper s)

/-- Outcome of one primitive store call: success, a failed write
(`set` returning `False`), or a raised exception. -/
inductive Outcome where
  | ok
  | fail
  | raise
deriving DecidableEq, Repr

/-- The cache store (key, value, ttl) together with the schedule of
outcomes for the upcoming primitive calls; an exhausted schedule means
every further call succeeds (the honest store). -/
structure CacheSt where
  store : List (String × PyVal × Nat)
  sched : List Outcome

/-- Pop the next outcome off the schedule (`ok` when exhausted). -/
def popOutcome : List Outcome → Outcome × List Outcome
  | [] => (.ok, [])
  | o :: rest => (o, rest)

/-- Look a key up in the store. -/
def lookupStore : List (String × PyVal × Nat) → String → Option (PyVal × Nat)
  | [], _ => none
  | (k, v, t) :: rest, key => if k == key then some (v, t) else lookupStore rest key

/-- Remove a key from the store. -/
def eraseKey : List (String × PyVal × Nat) → String → List (String × PyVal × Nat)
  | [], _ => []
  | (k, v, t) :: rest, key =>
    if k == key then eraseKey rest key else (k, v, t) :: eraseKey rest key

/-- Overwrite a key in the store (last-writer-wins put). -/
def setEntry (key : String) (v : PyVal) (ttl : Nat)
    (st : List (String × PyVal × Nat)) : List (String × PyVal × Nat) :=
  (key, v, ttl) :: eraseKey st key

/-- `cache.get(key)`: honest lookup unless the scheduled outcome is an
exception. -/
def cacheGet (key : String) (st : CacheSt) : PyResult (Option PyVal) × CacheSt :=
  match popOutcome st.sched with
  | (.raise, rest) => (.exn, ⟨st.store, rest⟩)
  | (_, rest) => (.ok ((lookupStore st.store key).map (fun e => e.1)), ⟨st.store, rest⟩)

/-- `cache.set(key, v, timeout)`: writes and returns `True` on success,
returns `False` without writing on a failed write, raises on exception. -/
def cacheSet (key : String) (v : PyVal) (ttl : Nat) (st : CacheSt) :
    PyResult Bool × CacheSt :=
  match popOutcome st.sched with
  | (.raise, rest) => (.exn, ⟨st.store, rest⟩)
  | (.fail, rest) => (.ok false, ⟨st.store, rest⟩)
  | (.ok, rest) => (.ok true, ⟨setEntry key v ttl st.store, rest⟩)

/-- `cache.set_many(mapping, timeout)` (its return value is ignored by the
source). -/
def cacheSetMany (kvs : List (String × PyVal)) (ttl : Nat) (st : CacheSt) :
    PyResult Unit × CacheSt :=
  match popOutcome st.sched with
  | (.raise, rest) => (.exn, ⟨st.store, rest⟩)
  | (.fail, rest) => (.ok (), ⟨st.store, rest⟩)
  | (.ok, rest) =>
    (.ok (), ⟨kvs.foldl (fun acc kv => setEntry kv.1 kv.2 ttl acc) st.store, rest⟩)

/-- Configuration of `AirportCacheService`: the three cache keys, the
default timeout, and the current timestamp text written to the last-sync
key. -/
structure CacheCfg where
  airports_data_key : String
  airports_by_iata_key : String
  last_sync_key : String
  default_timeout : Nat
  now : String

/-- The individual cache key for a code: `airports_by_iata_key:CODE`. -/
def iKey (cfg : CacheCfg) (iata : String) : String :=
  cfg.airports_by_iata_key ++ ":" ++ iata

/-- `timeout = timeout or self.default_timeout` — Python `or`, so an
explicit `0` (falsy) also falls back to the default. -/
def resolveTimeout (cfg : CacheCfg) (t : Option Nat) : Nat :=
  match t with
  | none => cfg.default_timeout
  | some n => if n == 0 then cfg.default_timeout else n

/-! ## The `airports/services.py` variant (`svc_` prefix)

Bulk and individual values are stored JSON-serialized; `get_airport_by_iata`
reads only the individual entry (no bulk fallback). -/

/-- `services.AirportCacheService.get_airports_data`: read the bulk key,
truthiness-test it, deserialize, with every error converted to `None`. -/
def svc_get_airports_data (cfg : CacheCfg) (st : CacheSt) :
    Option PyVal × CacheSt :=
  match cacheGet cfg.airports_data_key st with
  | (.exn, st1) => (none, st1)
  | (.ok v, st1) =>
    if truthyOpt v then
      match v with
      | some d =>
        match loads d with
        | some parsed => (some parsed, st1)
        | none => (none, st1)
      | none => (none, st1)
    else (none, st1)

/-- `services.AirportCacheService.get_airport_by_iata`: normalize the code,
read only the individual entry, truthiness-test, deserialize; every error
path returns `None`. -/
def svc_get_airport_by_iata (cfg : CacheCfg) (iata : String) (st : CacheSt) :
    Option PyVal × CacheSt :=
  let key := iKey cfg (normIata iata)
  match cacheGet key st with
  | (.exn, st1) => (none, st1)
  | (.ok v, st1) =>
    if truthyOpt v then
      match v with
      | some d =>
        match loads d with
        | some parsed => (some parsed, st1)
        | none => (none, st1)
      | none => (none, st1)
    else (none, st1)

/-- The required keys of an airport record checked by
`services._cache_individual_airports`. -/
def requiredKeys : List String := ["iata", "city", "lat", "lon", "state"]

/-- `all(k in airport_data for k in keys)`, short-circuiting; `none` when a
membership test raises. -/
def pyAllKeys : List String → PyVal → Option Bool
  | [], _ => some true
  | k :: ks, a =>
    match pyContains a k with
    | none => none
    | some false => some false
    | some true => pyAllKeys ks a

/-- The loop of `services._cache_individual_airports`: skip records missing
a required key, serialize and write the rest one by one; a raised
exception aborts the loop (it is caught by the surrounding `except`). -/
def svc_indiv_loop (cfg : CacheCfg) (timeout : Nat) :
    List (String × PyVal) → CacheSt → CacheSt
  | [], st => st
  | (iata, a) :: rest, st =>
    match pyAllKeys requiredKeys a with
    | none => st
    | some false => svc_indiv_loop cfg timeout rest st
    | some true =>
      match cacheSet (iKey cfg iata) (.jsonOf a) timeout st with
      | (.exn, st1) => st1
      | (.ok _, st1) => svc_indiv_loop cfg timeout rest st1

/-- `services._cache_individual_airports`: the loop under its own
`try`/`except`, which never lets an exception escape. -/
def svc_cache_individual (cfg : CacheCfg) (data : List (String × PyVal))
    (timeout : Nat) (st : CacheSt) : CacheSt :=
  svc_indiv_loop cfg timeout data st

/-- `services.AirportCacheService.cache_airports_data`: serialize and write
the bulk snapshot; on success best-effort write the individual entries,
then stamp the last sync, returning `True`; any failure of the bulk write
or a raised exception gives `False`. -/
def svc_cache_airports_data (cfg : CacheCfg) (data : List (String × PyVal))
    (t : Option Nat) (st : CacheSt) : Bool × CacheSt :=
  let timeout := resolveTimeout cfg t
  match cacheSet cfg.airports_data_key (.jsonOf (.dict data)) timeout st with
  | (.exn, st1) => (false, st1)
  | (.ok false, st1) => (false, st1)
  | (.ok true, st1) =>
    let st2 := svc_cache_individual cfg data timeout st1
    match cacheSet cfg.last_sync_key (.str cfg.now) timeout st2 with
    | (.exn, st3) => (false, st3)
    | (.ok _, st3) => (true, st3)

/-! ## The `airports/cache_service.py` variant (`cs_` prefix)

Values are stored unserialized; `get_airport_by_iata` falls back to the
bulk snapshot on an individual miss and backfills the individual entry. -/

/-- `cache_service.AirportCacheService.get_airports_data`: read the bulk
key and truthiness-test it (no deserialization). -/
def cs_get_airports_data (cfg : CacheCfg) (st : CacheSt) :
    Option PyVal × CacheSt :=
  match cacheGet cfg.airports_data_key st with
  | (.exn, st1) => (none, st1)
  | (.ok v, st1) => if truthyOpt v then (v, st1) else (none, st1)

/-- `cache_service.AirportCacheService.get_airport_by_iata`: normalize the
code, try the individual entry, and on a miss fall back to the bulk
snapshot, backfilling the individual entry with the default timeout;
every raised exception is converted to `None`. -/
def cs_get_airport_by_iata (cfg : CacheCfg) (iata : String) (st : CacheSt) :
    Option PyVal × CacheSt :=
  let n := normIata iata
  let key := iKey cfg n
  match cacheGet key st with
  | (.exn, st1) => (none, st1)
  | (.ok v, st1) =>
    if truthyOpt v then (v, st1)
    else
      match cs_get_airports_data cfg st1 with
      | (some all, st2) =>
        if all.truthy then
          match pyContains all n with
          | none => (none, st2)
          | some false => (none, st2)
          | some true =>
            match pyIndex all n with
            | none => (none, st2)
            | some rec =>
              match cacheSet key rec cfg.default_timeout st2 with
              | (.exn, st3) => (none, st3)
              | (.ok _, st3) => (some rec, st3)
        else (none, st2)
      | (none, st2) => (none, st2)

/-- `cache_service._cache_individual_airports`: build the mapping of
individual keys and `set_many` it, under its own `try`/`except`. -/
def cs_cache_individual (cfg : CacheCfg) (data : List (String × PyVal))
    (timeout : Nat) (st : CacheSt) : CacheSt :=
  (cacheSetMany (data.map (fun kv => (iKey cfg kv.1, kv.2))) timeout st).2

/-- `cache_service.AirportCacheService.cache_airports_data`: write the bulk
snapshot unserialized; on success write the individual entries and the
last-sync stamp, returning `True`; bulk-write failure or a raised
exception gives `False`. -/
def cs_cache_airports_data (cfg : CacheCfg) (data : List (String × PyVal))
    (t : Option Nat) (st : CacheSt) : Bool × CacheSt :=
  let timeout := resolveTimeout cfg t
  match cacheSet cfg.airports_data_key (.dict data) timeout st with
  | (.exn, st1) => (false, st1)
  | (.ok false, st1) => (false, st1)
  | (.ok true, st1) =>
    let st2 := cs_cache_individual cfg data timeout st1
    match cacheSet cfg.last_sync_key (.str cfg.now) timeout st2 with
    | (.exn, st3) => (false, st3)
    | (.ok _, st3) => (true, st3)

/-- Whether the individual entry for a (normalized) code is present and
truthy in a store. -/
def indivHitB (cfg : CacheCfg) (store : List (String × PyVal × Nat))
    (n : String) : Bool :=
  match lookupStore store (iKey cfg n) with
  | some e => e.1.truthy
  | none => false

/-- The record the bulk snapshot yields for a (normalized) code: the value
under the code when the bulk entry is a truthy value containing the code,
and `none` otherwise. -/
def bulkYields (cfg : CacheCfg) (store : List (String × PyVal × Nat))
    (n : String) : Option PyVal :=
  match lookupStore store cfg.airports_data_key with
  | none => none
  | some e =>
    if e.1.truthy then
      match pyContains e.1 n with
      | some true => pyIndex e.1 n
      | _ => none
    else none

/-! ## Leg normalizer and combination engine (`flights/views.py`)

Python floats are idealized as rationals; timestamps are the values of
`datetime.fromisoformat` in seconds, so that subtraction and the
`/ 3600` conversion match `(arr - dep).total_seconds() / 3600`. -/

/-- Python `round(q)`: nearest integer, ties to even. -/
def pyRound (q : Rat) : Int :=
  let f := Int.fdiv q.num q.den
  let frac := q - (f : Rat)
  if frac < 1/2 then f
  else if 1/2 < frac then f + 1
  else if f % 2 == 0 then f else f + 1

/-- Python `round(q, 2)`: round to two decimal places. -/
def pyRound2 (q : Rat) : Rat := (pyRound (q * 100) : Rat) / 100

/-- A raw provider leg: the provider-supplied departure and arrival
timestamps (seconds) and the fare under `price`. -/
structure RawLeg where
  departure_time : Rat
  arrival_time : Rat
  fare : Rat
deriving DecidableEq, Repr

/-- The price block written by the normalizer. -/
structure Price where
  fare : Rat
  fee : Rat
  total : Rat
deriving DecidableEq, Repr

/-- The meta block written by the normalizer. -/
structure Meta where
  range : Int
  cruise_speed_kmh : Int
  cost_per_km : Rat
deriving DecidableEq, Repr

/-- A normalized leg: the raw fields plus the computed price and meta. -/
structure NormLeg where
  departure_time : Rat
  arrival_time : Rat
  price : Price
  meta : Meta
deriving DecidableEq, Repr

/-- The body of the loop of `process_flight_options`, applied to one
option: compute the duration, the fee (10% of fare with a 40.0 floor), the
total, and the zero-guarded cruise speed and cost per km. -/
def processLeg (distance : Rat) (o : RawLeg) : NormLeg :=
  let duration_hours := (o.arrival_time - o.departure_time) / 3600
  let fare := o.fare
  let fee := max (1/10 * fare) 40
  let total := fare + fee
  let cruise_speed := if 0 < duration_hours then pyRound (distance / duration_hours) else 0
  let cost_per_km := if 0 < distance then pyRound2 (fare / distance) else 0
  { departure_time := o.departure_time
    arrival_time := o.arrival_time
    price := { fare := fare, fee := fee, total := total }
    meta := { range := pyRound distance, cruise_speed_kmh := cruise_speed,
              cost_per_km := cost_per_km } }

/-- `process_flight_options(options, distance)`: normalize every option
with the shared distance. -/
def process_flight_options (options : List RawLeg) (distance : Rat) :
    List NormLeg :=
  options.map (processLeg distance)

/-- One itinerary combination: an outbound leg, a return leg and the
combined price. -/
structure Combination where
  outbound : NormLeg
  ret : NormLeg
  combined_price : Price
deriving DecidableEq, Repr

/-- The combination built from an outbound and a return leg: the fieldwise
sum of the two price blocks. -/
def mkComb (o r : NormLeg) : Combination :=
  { outbound := o, ret := r
    combined_price :=
      { fare := o.price.fare + r.price.fare
        fee := o.price.fee + r.price.fee
        total := o.price.total + r.price.total } }

/-- The nested combination loops of `flight_search`: for each outbound
option append one combination per return option (outbound-major,
return-minor enumeration). -/
def combine : List NormLeg → List NormLeg → List Combination
  | [], _ => []
  | o :: outs, rets => rets.map (mkComb o) ++ combine outs rets

/-- The comparator of `combinations.sort(key=lambda x: x.combined_price.total)`. -/
def combLe (a b : Combination) : Bool :=
  decide (a.combined_price.total ≤ b.combined_price.total)

/-- `combinations.sort(...)`: Python's stable sort, ascending by combined
total. -/
def rankCombinations (cs : List Combination) : List Combination :=
  cs.mergeSort combLe

/-! ## Haversine distance (`flights/views.py`) -/

noncomputable section

/-- `math.radians`. -/
def radians (x : ℝ) : ℝ := x * Real.pi / 180

/-- `math.atan2(y, x)` by the usual case analysis. -/
def atan2 (y x : ℝ) : ℝ :=
  if 0 < x then Real.arctan (y / x)
  else if x < 0 then
    (if 0 ≤ y then Real.arctan (y / x) + Real.pi else Real.arctan (y / x) - Real.pi)
  else
    (if 0 < y then Real.pi / 2 else if y < 0 then -(Real.pi / 2) else 0)

/-- The intermediate value `a` of the haversine formula. -/
def havA (lat1 lon1 lat2 lon2 : ℝ) : ℝ :=
  Real.sin (radians (lat2 - lat1) / 2) ^ 2 +
    Real.cos (radians lat1) * Real.cos (radians lat2) *
      Real.sin (radians (lon2 - lon1) / 2) ^ 2

/-- `haversine(lat1, lon1, lat2, lon2)`: great-circle distance with Earth
radius 6371 km. -/
def haversine (lat1 lon1 lat2 lon2 : ℝ) : ℝ :=
  6371 * (2 * atan2 (Real.sqrt (havA lat1 lon1 lat2 lon2))
    (Real.sqrt (1 - havA lat1 lon1 lat2 lon2)))

end

/-! ## Concrete fixtures used by witnesses and counterexamples -/

/-- A concrete service configuration with the versioned keys of the
source's settings defaults. -/
def cfgEx : CacheCfg :=
  { airports_data_key := "airports:data:v1"
    airports_by_iata_key := "airports:by_iata:v1"
    last_sync_key := "airports:last_sync:v1"
    default_timeout := 86400
    now := "2025-01-01T00:00:00" }

/-- A concrete airport record for GRU. -/
def recGRU : PyVal :=
  .dict [("iata", .str "GRU"), ("city", .str "Sao Paulo"),
         ("lat", .str "-23.432075"), ("lon", .str "-46.469511"),
         ("state", .str "SP")]

/-- A store holding only the bulk snapshot containing GRU. -/
def storeBulkOnly : List (String × PyVal × Nat) :=
  [("airports:data:v1", .dict [("GRU", recGRU)], 86400)]

/-! ## Claim theorems -/

/-- C7: for every fare ≥ 0 the Leg Normalizer computes
`fee = max(0.1*fare, 40.0)` and `total = fare + fee`, hence `fee ≥ 40.0`
and `total ≥ fare + 40.0`. -/
theorem feeFloorAndTotal (d : Rat) (o : RawLeg) (h : 0 ≤ o.fare) :
    (processLeg d o).price.fee = max (1/10 * o.fare) 40 ∧
    (processLeg d o).price.total = o.fare + (processLeg d o).price.fee ∧
    40 ≤ (processLeg d o).price.fee ∧
    o.fare + 40 ≤ (processLeg d o).price.total := by
  refine ⟨rfl, rfl, le_max_right _ _, ?_⟩
  show o.fare + 40 ≤ o.fare + max (1/10 * o.fare) 40
  exact add_le_add_left (le_max_right _ _) _

/-- Witness for C7 at fare 0. -/
theorem feeFloorAndTotal_witness :
    0 ≤ (({ departure_time := 0, arrival_time := 0, fare := 0 } : RawLeg)).fare ∧
    40 ≤ (processLeg 0 { departure_time := 0, arrival_time := 0, fare := 0 }).price.fee := by
  exact ⟨le_refl 0, (feeFloorAndTotal 0 _ (le_refl 0)).2.2.1⟩

/-- C8: the Leg Normalizer is total; both divisions are guarded, so the
cruise speed is the rounded distance over duration when the duration is
positive and 0 otherwise, and the cost per km is the fare over distance
rounded to 2 decimals when the distance is positive and 0 otherwise. -/
theorem legNormalizerGuards (d : Rat) (o : RawLeg) :
    (processLeg d o).meta.cruise_speed_kmh =
      (if 0 < (o.arrival_time - o.departure_time) / 3600
       then pyRound (d / ((o.arrival_time - o.departure_time) / 3600)) else 0) ∧
    (processLeg d o).meta.cost_per_km =
      (if 0 < d then pyRound2 (o.fare / d) else 0) ∧
    (processLeg d o).meta.range = pyRound d ∧
    ((o.arrival_time - o.departure_time) / 3600 ≤ 0 →
      (processLeg d o).meta.cruise_speed_kmh = 0) ∧
    (d ≤ 0 → (processLeg d o).meta.cost_per_km = 0) := by
  refine ⟨rfl, rfl, rfl, ?_, ?_⟩
  · intro h
    show (if 0 < (o.arrival_time - o.departure_time) / 3600
      then pyRound (d / ((o.arrival_time - o.departure_time) / 3600)) else 0) = 0
    exact if_neg (not_lt.mpr h)
  · intro h
    show (if 0 < d then pyRound2 (o.fare / d) else 0) = 0
    exact if_neg (not_lt.mpr h)

/-- Witness for C8 on a degenerate leg (zero duration, zero distance). -/
theorem legNormalizerGuards_witness :
    ((0:Rat) - 0) / 3600 ≤ 0 ∧ (0:Rat) ≤ 0 ∧
    (processLeg 0 { departure_time := 0, arrival_time := 0, fare := 5 }).meta.cruise_speed_kmh = 0 ∧
    (processLeg 0 { departure_time := 0, arrival_time := 0, fare := 5 }).meta.cost_per_km = 0 := by
  refine ⟨by simp, le_refl 0, ?_, ?_⟩
  · exact (legNormalizerGuards 0 { departure_time := 0, arrival_time := 0, fare := 5 }).2.2.2.1 (by simp)
  · exact (legNormalizerGuards 0 { departure_time := 0, arrival_time := 0, fare := 5 }).2.2.2.2 (le_refl 0)

/-- C2: normalization preserves the provider-supplied fields of every
input leg: the departure timestamp, arrival timestamp and fare are carried
unchanged into the normalized leg. -/
theorem legNormalizerPreservesRawFields (options : List RawLeg) (d : Rat)
    (i : Nat) (h : i < options.length)
    (h2 : i < (process_flight_options options d).length) :
    ((process_flight_options options d).get ⟨i, h2⟩).departure_time =
      (options.get ⟨i, h⟩).departure_time ∧
    ((process_flight_options options d).get ⟨i, h2⟩).arrival_time =
      (options.get ⟨i, h⟩).arrival_time ∧
    ((process_flight_options options d).get ⟨i, h2⟩).price.fare =
      (options.get ⟨i, h⟩).fare := by
  simp only [process_flight_options, List.get_eq_getElem, List.getElem_map]
  exact ⟨rfl, rfl, rfl⟩

/-- Witness for C2 on a two-leg list. -/
theorem legNormalizerPreservesRawFields_witness :
    1 < ([{ departure_time := 10, arrival_time := 20, fare := 7 },
          { departure_time := 30, arrival_time := 40, fare := 9 }] : List RawLeg).length ∧
    ((process_flight_options
        [{ departure_time := 10, arrival_time := 20, fare := 7 },
         { departure_time := 30, arrival_time := 40, fare := 9 }] 100).get
      ⟨1, by decide⟩).price.fare =
      (([{ departure_time := 10, arrival_time := 20, fare := 7 },
          { departure_time := 30, arrival_time := 40, fare := 9 }] : List RawLeg).get ⟨1, by decide⟩).fare := by
  exact ⟨by decide,
    (legNormalizerPreservesRawFields
      [{ departure_time := 10, arrival_time := 20, fare := 7 },
       { departure_time := 30, arrival_time := 40, fare := 9 }] 100 1 (by decide) (by decide)).2.2⟩

/-- The squared sine of a half-angle is unchanged when the difference is
flipped. -/
theorem sin_sq_radians_swap (x y : ℝ) :
    Real.sin (radians (x - y) / 2) ^ 2 = Real.sin (radians (y - x) / 2) ^ 2 := by
  have h : radians (x - y) = -(radians (y - x)) := by
    unfold radians; ring
  rw [h, neg_div, Real.sin_neg, neg_sq]

/-- The haversine intermediate value is symmetric in the two points. -/
theorem havA_symm (a b c d : ℝ) : havA a b c d = havA c d a b := by
  unfold havA
  rw [sin_sq_radians_swap c a, sin_sq_radians_swap d b,
    mul_comm (Real.cos (radians a)) (Real.cos (radians c))]

/-- C9: the geodesic distance is symmetric and zero on coincident
points. -/
theorem haversineSymmAndZero :
    (∀ lat1 lon1 lat2 lon2 : ℝ,
      haversine lat1 lon1 lat2 lon2 = haversine lat2 lon2 lat1 lon1) ∧
    (∀ lat lon : ℝ, haversine lat lon lat lon = 0) := by
  constructor
  · intro lat1 lon1 lat2 lon2
    unfold haversine
    rw [havA_symm]
  · intro lat lon
    have hA : havA lat lon lat lon = 0 := by
      unfold havA radians
      simp
    unfold haversine
    rw [hA]
    have h01 : (0:ℝ) < 1 := by norm_num
    simp [atan2, h01, Real.arctan_zero]

/-- Length of the combination list: one entry per pair. -/
theorem combine_length (outs rets : List NormLeg) :
    (combine outs rets).length = outs.length * rets.length := by
  induction outs with
  | nil => simp [combine]
  | cons o outs ih =>
    simp [combine, ih, List.length_append, List.length_map, Nat.succ_mul]
    ring

/-- The element of the combination list at cartesian index `i*n + j` is
the combination of the `i`-th outbound and `j`-th return leg. -/
theorem combine_get (outs rets : List NormLeg) (i j : Nat)
    (hi : i < outs.length) (hj : j < rets.length)
    (hk : i * rets.length + j < (combine outs rets).length) :
    (combine outs rets).get ⟨i * rets.length + j, hk⟩ =
      mkComb (outs.get ⟨i, hi⟩) (rets.get ⟨j, hj⟩) := by
  induction outs generalizing i with
  | nil => exact absurd hi (Nat.not_lt_zero i)
  | cons o outs ih =>
    cases i with
    | zero =>
      simp only [List.get_eq_getElem, combine]
      rw [List.getElem_append_left (by simpa using hj)]
      simp [List.getElem_map]
    | succ i =>
      have hlen : (rets.map (mkComb o)).length ≤ (i + 1) * rets.length + j := by
        simp only [List.length_map]
        calc rets.length ≤ (i + 1) * rets.length := Nat.le_mul_of_pos_left _ (Nat.succ_pos i)
        _ ≤ (i + 1) * rets.length + j := Nat.le_add_right _ _
      simp only [List.get_eq_getElem, combine]
      rw [List.getElem_append_right hlen]
      have harith : (i + 1) * rets.length + j - (rets.map (mkComb o)).length =
          i * rets.length + j := by
        simp only [List.length_map, Nat.succ_mul]
        omega
      have hi' : i < outs.length := Nat.lt_of_succ_lt_succ hi
      have hk' : i * rets.length + j < (combine outs rets).length := by
        rw [combine_length]
        calc i * rets.length + j < i * rets.length + rets.length := Nat.add_lt_add_left hj _
        _ = (i + 1) * rets.length := (Nat.succ_mul i rets.length).symm
        _ ≤ outs.length * rets.length := Nat.mul_le_mul_right _ hi'
      have hstep : (combine outs rets).get
          ⟨(i + 1) * rets.length + j - (rets.map (mkComb o)).length, by
            rw [harith]; exact hk'⟩ =
          (combine outs rets).get ⟨i * rets.length + j, hk'⟩ := by
        congr 1
        exact Fin.ext harith
      have hrec := ih i hi' hk'
      simp only [List.get_eq_getElem] at hstep hrec
      rw [hstep, hrec]
      simp [List.getElem_cons_succ]

/-- C6: the Combination Engine produces exactly `m*n` combinations, one
per cartesian pair, each priced with the fieldwise sum of the two legs'
price blocks; nothing is deduplicated or dropped. -/
theorem combinationCardinalityAndSums (outs rets : List NormLeg) :
    (combine outs rets).length = outs.length * rets.length ∧
    ∀ (i j : Nat) (hi : i < outs.length) (hj : j < rets.length)
      (hk : i * rets.length + j < (combine outs rets).length),
      (combine outs rets).get ⟨i * rets.length + j, hk⟩ =
        { outbound := outs.get ⟨i, hi⟩, ret := rets.get ⟨j, hj⟩
          combined_price :=
            { fare := (outs.get ⟨i, hi⟩).price.fare + (rets.get ⟨j, hj⟩).price.fare
              fee := (outs.get ⟨i, hi⟩).price.fee + (rets.get ⟨j, hj⟩).price.fee
              total := (outs.get ⟨i, hi⟩).price.total + (rets.get ⟨j, hj⟩).price.total } } := by
  refine ⟨combine_length outs rets, ?_⟩
  intro i j hi hj hk
  exact combine_get outs rets i j hi hj hk

/-- Witness for C6 on a 2 by 1 product, checking the cardinality and the
entry at cartesian index (1, 0). -/
theorem combinationCardinalityAndSums_witness :
    (combine
      [processLeg 100 { departure_time := 0, arrival_time := 3600, fare := 10 },
       processLeg 100 { departure_time := 0, arrival_time := 3600, fare := 20 }]
      [processLeg 100 { departure_time := 0, arrival_time := 3600, fare := 30 }]).length = 2 * 1 ∧
    (combine
      [processLeg 100 { departure_time := 0, arrival_time := 3600, fare := 10 },
       processLeg 100 { departure_time := 0, arrival_time := 3600, fare := 20 }]
      [processLeg 100 { departure_time := 0, arrival_time := 3600, fare := 30 }]).get ⟨1 * 1 + 0, by decide⟩ =
      { outbound := processLeg 100 { departure_time := 0, arrival_time := 3600, fare := 20 }
        ret := processLeg 100 { departure_time := 0, arrival_time := 3600, fare := 30 }
        combined_price :=
          { fare := (processLeg 100 { departure_time := 0, arrival_time := 3600, fare := 20 }).price.fare +
              (processLeg 100 { departure_time := 0, arrival_time := 3600, fare := 30 }).price.fare
            fee := (processLeg 100 { departure_time := 0, arrival_time := 3600, fare := 20 }).price.fee +
              (processLeg 100 { departure_time := 0, arrival_time := 3600, fare := 30 }).price.fee
            total := (processLeg 100 { departure_time := 0, arrival_time := 3600, fare := 20 }).price.total +
              (processLeg 100 { departure_time := 0, arrival_time := 3600, fare := 30 }).price.total } } := by
  refine ⟨(combinationCardinalityAndSums _ _).1, ?_⟩
  exact (combinationCardinalityAndSums
    [processLeg 100 { departure_time := 0, arrival_time := 3600, fare := 10 },
     processLeg 100 { departure_time := 0, arrival_time := 3600, fare := 20 }]
    [processLeg 100 { departure_time := 0, arrival_time := 3600, fare := 30 }]).2 1 0
    (by decide) (by decide) (by decide)

/-- The comparator is transitive. -/
theorem combLe_trans (a b c : Combination) (h1 : combLe a b = true)
    (h2 : combLe b c = true) : combLe a c = true := by
  simp only [combLe, decide_eq_true_eq] at *
  exact le_trans h1 h2

/-- The comparator is total. -/
theorem combLe_total (a b : Combination) : (combLe a b || combLe b a) = true := by
  simp only [combLe, Bool.or_eq_true, decide_eq_true_eq]
  exact le_total _ _

/-- C5: the engine's ranked output is non-decreasing in the combined
total, and the sort is stable: for every total value, the combinations
with that total appear exactly in cartesian-product enumeration order. -/
theorem combinationRankingSortedStable (outs rets : List NormLeg) :
    List.Pairwise
      (fun a b => a.combined_price.total ≤ b.combined_price.total)
      (rankCombinations (combine outs rets)) ∧
    ∀ k : Rat,
      (rankCombinations (combine outs rets)).filter
        (fun c => c.combined_price.total == k) =
      (combine outs rets).filter (fun c => c.combined_price.total == k) := by
  constructor
  · have hs := List.sorted_mergeSort combLe_trans combLe_total (combine outs rets)
    exact hs.imp (fun hab => by simpa [combLe, decide_eq_true_eq] using hab)
  · intro k
    set l := combine outs rets with hl
    set p : Combination → Bool := fun c => c.combined_price.total == k with hp
    have hsubl : (l.filter p).Sublist l := List.filter_sublist l
    have hpair : (l.filter p).Pairwise (fun a b => combLe a b = true) := by
      apply List.pairwise_of_forall_mem_list
      intro a ha b hb
      have ha2 : a.combined_price.total = k := by
        have := (List.mem_filter.mp ha).2
        simpa [hp] using this
      have hb2 : b.combined_price.total = k := by
        have := (List.mem_filter.mp hb).2
        simpa [hp] using this
      simp only [combLe, decide_eq_true_eq]
      exact le_of_eq (ha2.trans hb2.symm)
    have h1 : (l.filter p).Sublist (l.mergeSort combLe) :=
      List.sublist_mergeSort combLe_trans combLe_total hpair hsubl
    have h2 : ((l.mergeSort combLe).filter p).Perm (l.filter p) :=
      (List.mergeSort_perm l combLe).filter p
    have hidem : (l.filter p).filter p = l.filter p := by
      apply List.filter_eq_self.mpr
      intro a ha
      exact (List.mem_filter.mp ha).2
    have h3 : (l.filter p).Sublist ((l.mergeSort combLe).filter p) := by
      have := h1.filter p
      rwa [hidem] at this
    have h4 : l.filter p = (l.mergeSort combLe).filter p :=
      h3.eq_of_length (by rw [h2.length_eq])
    exact h4.symm

/-- Looking up the key just written returns the written value and ttl. -/
theorem lookup_setEntry_self (k : String) (v : PyVal) (ttl : Nat)
    (s : List (String × PyVal × Nat)) :
    lookupStore (setEntry k v ttl s) k = some (v, ttl) := by
  simp [setEntry, lookupStore]

/-- Erasing one key leaves lookups of other keys unchanged. -/
theorem lookup_eraseKey_ne (k1 k2 : String) (h : k1 ≠ k2)
    (s : List (String × PyVal × Nat)) :
    lookupStore (eraseKey s k1) k2 = lookupStore s k2 := by
  induction s with
  | nil => rfl
  | cons e rest ih =>
    obtain ⟨k, v, t⟩ := e
    by_cases hk : k = k1
    · subst hk
      have hne : (k == k2) = false := beq_eq_false_iff_ne.mpr h
      simp [eraseKey, lookupStore, hne, ih]
    · have hne1 : (k == k1) = false := beq_eq_false_iff_ne.mpr hk
      by_cases hk2 : k = k2
      · subst hk2
        simp [eraseKey, lookupStore, hne1]
      · have hne2 : (k == k2) = false := beq_eq_false_iff_ne.mpr hk2
        simp [eraseKey, lookupStore, hne1, hne2, ih]

/-- Writing one key leaves lookups of other keys unchanged. -/
theorem lookup_setEntry_ne (k1 k2 : String) (h : k1 ≠ k2) (v : PyVal)
    (ttl : Nat) (s : List (String × PyVal × Nat)) :
    lookupStore (setEntry k1 v ttl s) k2 = lookupStore s k2 := by
  have hne : (k1 == k2) = false := beq_eq_false_iff_ne.mpr h
  simp [setEntry, lookupStore, hne, lookup_eraseKey_ne k1 k2 h]

/-- Evaluation of the fallback variant's `get_airport_by_iata` on an
honest store when the individual entry misses: the result is exactly what
the bulk snapshot yields, with the backfill write on a hit. -/
theorem cs_get_by_iata_honest (cfg : CacheCfg) (C : String)
    (store : List (String × PyVal × Nat))
    (hmiss : indivHitB cfg store (normIata C) = false) :
    cs_get_airport_by_iata cfg C ⟨store, []⟩ =
      match bulkYields cfg store (normIata C) with
      | some r =>
        (some r, ⟨setEntry (iKey cfg (normIata C)) r cfg.default_timeout store, []⟩)
      | none => (none, ⟨store, []⟩) := by
  unfold indivHitB at hmiss
  simp only [cs_get_airport_by_iata, cs_get_airports_data, cacheGet, cacheSet,
    popOutcome, bulkYields]
  rcases hL : lookupStore store (iKey cfg (normIata C)) with _ | ⟨v, ttl⟩
  · simp only [Option.map_none', truthyOpt, Bool.false_eq_true, if_false]
    rcases hB : lookupStore store cfg.airports_data_key with _ | ⟨w, tb⟩
    · simp [truthyOpt]
    · by_cases hw : w.truthy
      · simp only [Option.map_some', truthyOpt, hw, if_true]
        rcases hC : pyContains w (normIata C) with _ | b
        · simp
        · cases b
          · simp
          · rcases hI : pyIndex w (normIata C) with _ | r
            · simp
            · simp
      · simp [truthyOpt, hw]
  · rw [hL] at hmiss
    have hv : v.truthy = false := hmiss
    simp only [Option.map_some', truthyOpt, hv, Bool.false_eq_true, if_false]
    rcases hB : lookupStore store cfg.airports_data_key with _ | ⟨w, tb⟩
    · simp [truthyOpt]
    · by_cases hw : w.truthy
      · simp only [Option.map_some', truthyOpt, hw, if_true]
        rcases hC : pyContains w (normIata C) with _ | b
        · simp
        · cases b
          · simp
          · rcases hI : pyIndex w (normIata C) with _ | r
            · simp
            · simp
      · simp [truthyOpt, hw]

/-- C1: on an individual-entry miss for the normalized code, the fallback
variant's `get_airport_by_iata` returns the record the bulk snapshot holds
for the code and backfills the individual entry with the default ttl; when
neither tier yields the code it returns absent (and writes nothing). -/
theorem cacheFallbackBackfill (cfg : CacheCfg) (C : String)
    (store : List (String × PyVal × Nat))
    (hmiss : indivHitB cfg store (normIata C) = false) :
    (∀ r, bulkYields cfg store (normIata C) = some r →
      cs_get_airport_by_iata cfg C ⟨store, []⟩ =
        (some r, ⟨setEntry (iKey cfg (normIata C)) r cfg.default_timeout store, []⟩)) ∧
    (bulkYields cfg store (normIata C) = none →
      cs_get_airport_by_iata cfg C ⟨store, []⟩ = (none, ⟨store, []⟩)) := by
  constructor
  · intro r hr
    rw [cs_get_by_iata_honest cfg C store hmiss, hr]
  · intro hn
    rw [cs_get_by_iata_honest cfg C store hmiss, hn]

/-- Witness for C1: with only the bulk snapshot present, looking up
" gru " returns the GRU record and backfills its individual entry. -/
theorem cacheFallbackBackfill_witness :
    indivHitB cfgEx storeBulkOnly (normIata " gru ") = false ∧
    bulkYields cfgEx storeBulkOnly (normIata " gru ") = some recGRU ∧
    cs_get_airport_by_iata cfgEx " gru " ⟨storeBulkOnly, []⟩ =
      (some recGRU,
        ⟨setEntry (iKey cfgEx (normIata " gru ")) recGRU cfgEx.default_timeout
          storeBulkOnly, []⟩) := by
  refine ⟨rfl, rfl, ?_⟩
  exact (cacheFallbackBackfill cfgEx " gru " storeBulkOnly rfl).1 recGRU rfl

/-- C4: every Directory Cache operation converts a raised store error into
its failure/absent sentinel instead of propagating it (in both service
variants), and a store failure is observationally identical to a genuine
miss. -/
theorem cacheErrorMasking (cfg : CacheCfg) (iata : String)
    (data : List (String × PyVal)) (t : Option Nat)
    (store : List (String × PyVal × Nat)) (rest : List Outcome) :
    svc_get_airports_data cfg ⟨store, .raise :: rest⟩ = (none, ⟨store, rest⟩) ∧
    svc_get_airport_by_iata cfg iata ⟨store, .raise :: rest⟩ = (none, ⟨store, rest⟩) ∧
    svc_cache_airports_data cfg data t ⟨store, .raise :: rest⟩ = (false, ⟨store, rest⟩) ∧
    cs_get_airports_data cfg ⟨store, .raise :: rest⟩ = (none, ⟨store, rest⟩) ∧
    cs_get_airport_by_iata cfg iata ⟨store, .raise :: rest⟩ = (none, ⟨store, rest⟩) ∧
    cs_cache_airports_data cfg data t ⟨store, .raise :: rest⟩ = (false, ⟨store, rest⟩) ∧
    (lookupStore store cfg.airports_data_key = none →
      svc_get_airports_data cfg ⟨store, []⟩ = (none, ⟨store, []⟩) ∧
      cs_get_airports_data cfg ⟨store, []⟩ = (none, ⟨store, []⟩)) := by
  refine ⟨rfl, rfl, rfl, rfl, rfl, rfl, ?_⟩
  intro hmiss
  constructor
  · simp [svc_get_airports_data, cacheGet, popOutcome, hmiss, truthyOpt]
  · simp [cs_get_airports_data, cacheGet, popOutcome, hmiss, truthyOpt]

/-- Witness for C4: a store whose every call raises behaves like an empty
store for `get_airports_data`. -/
theorem cacheErrorMasking_witness :
    lookupStore [] cfgEx.airports_data_key = none ∧
    svc_get_airports_data cfgEx ⟨[], [.raise]⟩ = (none, ⟨[], []⟩) ∧
    svc_get_airports_data cfgEx ⟨[], []⟩ = (none, ⟨[], []⟩) := by
  refine ⟨rfl, ?_, ?_⟩
  · exact (cacheErrorMasking cfgEx "GRU" [] none [] []).1
  · exact ((cacheErrorMasking cfgEx "GRU" [] none [] []).2.2.2.2.2.2 rfl).1

/-- The individual-write loop only consumes schedule entries: if the
schedule holds no raising outcome, neither does the schedule it leaves. -/
theorem svc_indiv_loop_sched_noraise (cfg : CacheCfg) (tm : Nat) :
    ∀ (data : List (String × PyVal)) (st : CacheSt),
      (∀ o ∈ st.sched, o ≠ Outcome.raise) →
      ∀ o ∈ (svc_indiv_loop cfg tm data st).sched, o ≠ Outcome.raise := by
  intro data
  induction data with
  | nil => intro st h; simpa [svc_indiv_loop] using h
  | cons e rest ih =>
    intro st h
    obtain ⟨iata, a⟩ := e
    simp only [svc_indiv_loop]
    rcases hv : pyAllKeys requiredKeys a with _ | b
    · exact h
    · cases b
      · exact ih st h
      · rcases hs : st.sched with _ | ⟨o, sch⟩
        · simp only [cacheSet, popOutcome, hs]
          exact ih _ (by simp)
        · have ho : o ≠ Outcome.raise := h o (by rw [hs]; exact List.mem_cons_self o sch)
          have hsch : ∀ x ∈ sch, x ≠ Outcome.raise := by
            intro x hx
            exact h x (by rw [hs]; exact List.mem_cons_of_mem o hx)
          cases o with
          | ok =>
            simp only [cacheSet, popOutcome, hs]
            exact ih _ (by simpa using hsch)
          | fail =>
            simp only [cacheSet, popOutcome, hs]
            exact ih _ (by simpa using hsch)
          | raise => exact absurd rfl ho

/-- C3: the services-variant `cache_airports_data` is atomic on bulk-write
failure — a failed or raising bulk write returns failure with the store
untouched (no individual entries, no last-sync stamp) — and tolerant of
individual-write failure: with the bulk write succeeding, the overall
result does not depend on anything that happens during the individual
phase (it is `True` unless the final last-sync write itself raises). -/
theorem putAllAtomicityAndTolerance (cfg : CacheCfg)
    (data : List (String × PyVal)) (t : Option Nat)
    (store : List (String × PyVal × Nat)) (rest : List Outcome) :
    svc_cache_airports_data cfg data t ⟨store, .fail :: rest⟩ = (false, ⟨store, rest⟩) ∧
    svc_cache_airports_data cfg data t ⟨store, .raise :: rest⟩ = (false, ⟨store, rest⟩) ∧
    ((∀ o ∈ rest, o ≠ Outcome.raise) →
      (svc_cache_airports_data cfg data t ⟨store, .ok :: rest⟩).1 = true) ∧
    ((svc_cache_airports_data cfg data t ⟨store, .ok :: rest⟩).1 = true ↔
      (popOutcome (svc_cache_individual cfg data (resolveTimeout cfg t)
        ⟨setEntry cfg.airports_data_key (.jsonOf (.dict data)) (resolveTimeout cfg t) store,
          rest⟩).sched).1 ≠ Outcome.raise) := by
  refine ⟨rfl, rfl, ?_, ?_⟩
  · intro hnr
    have hst : ∀ o ∈ (svc_cache_individual cfg data (resolveTimeout cfg t)
        ⟨setEntry cfg.airports_data_key (.jsonOf (.dict data)) (resolveTimeout cfg t) store,
          rest⟩).sched, o ≠ Outcome.raise :=
      svc_indiv_loop_sched_noraise cfg (resolveTimeout cfg t) data _ (by simpa using hnr)
    simp only [svc_cache_airports_data, cacheSet, popOutcome, svc_cache_individual] at hst ⊢
    rcases hp : (svc_indiv_loop cfg (resolveTimeout cfg t) data
        ⟨setEntry cfg.airports_data_key (.jsonOf (.dict data)) (resolveTimeout cfg t) store,
          rest⟩).sched with _ | ⟨o, sch⟩
    · simp [hp]
    · rw [hp] at hst
      have ho : o ≠ Outcome.raise := hst o (List.mem_cons_self o sch)
      cases o with
      | ok => simp [hp]
      | fail => simp [hp]
      | raise => exact absurd rfl ho
  · simp only [svc_cache_airports_data, cacheSet, popOutcome, svc_cache_individual]
    rcases hp : (svc_indiv_loop cfg (resolveTimeout cfg t) data
        ⟨setEntry cfg.airports_data_key (.jsonOf (.dict data)) (resolveTimeout cfg t) store,
          rest⟩).sched with _ | ⟨o, sch⟩
    · simp [hp]
    · cases o with
      | ok => simp [hp]
      | fail => simp [hp]
      | raise => simp [hp]

/-- Witness for C3: a failed bulk write leaves the store empty and returns
failure; with an honest store the call returns success. -/
theorem putAllAtomicityAndTolerance_witness :
    svc_cache_airports_data cfgEx [("GRU", recGRU)] none ⟨[], [.fail]⟩ = (false, ⟨[], []⟩) ∧
    (∀ o ∈ ([] : List Outcome), o ≠ Outcome.raise) ∧
    (svc_cache_airports_data cfgEx [("GRU", recGRU)] none ⟨[], [.ok]⟩).1 = true := by
  refine ⟨(putAllAtomicityAndTolerance cfgEx [("GRU", recGRU)] none [] []).1, by simp, ?_⟩
  exact (putAllAtomicityAndTolerance cfgEx [("GRU", recGRU)] none [] []).2.2.1 (by simp)

/-- Counterexample to C10 as stated: in the services variant, a successful
`cache_airports_data` of the empty mapping makes `get_airports_data`
return the empty mapping, not absent — the bulk snapshot is stored
JSON-serialized, and the serialized empty dict is a non-empty, truthy
string. -/
theorem emptyPutAllGetAllServices :
    (svc_cache_airports_data cfgEx [] none ⟨[], []⟩).1 = true ∧
    (svc_get_airports_data cfgEx (svc_cache_airports_data cfgEx [] none ⟨[], []⟩).2).1 =
      some (PyVal.dict []) ∧
    (svc_get_airports_data cfgEx (svc_cache_airports_data cfgEx [] none ⟨[], []⟩).2).1 ≠
      none := by
  refine ⟨rfl, rfl, ?_⟩
  rw [show (svc_get_airports_data cfgEx
    (svc_cache_airports_data cfgEx [] none ⟨[], []⟩).2).1 = some (PyVal.dict []) from rfl]
  exact Option.some_ne_none _

/-- C10 as amended: in the cache_service variant, which stores the mapping
unserialized, a successful `cache_airports_data` of the empty mapping
leaves `get_airports_data` returning absent — the truthiness test cannot
tell the stored empty mapping from a miss. -/
theorem emptyPutAllGetAllCacheService (cfg : CacheCfg) (t : Option Nat)
    (store : List (String × PyVal × Nat))
    (hk : cfg.last_sync_key ≠ cfg.airports_data_key) :
    (cs_cache_airports_data cfg [] t ⟨store, []⟩).1 = true ∧
    (cs_get_airports_data cfg (cs_cache_airports_data cfg [] t ⟨store, []⟩).2).1 = none := by
  have h1 : cs_cache_airports_data cfg [] t ⟨store, []⟩ =
      (true, ⟨setEntry cfg.last_sync_key (.str cfg.now) (resolveTimeout cfg t)
        (setEntry cfg.airports_data_key (.dict []) (resolveTimeout cfg t) store), []⟩) := rfl
  refine ⟨by rw [h1], ?_⟩
  rw [h1]
  simp only [cs_get_airports_data, cacheGet, popOutcome]
  rw [lookup_setEntry_ne _ _ hk, lookup_setEntry_self]
  simp [truthyOpt, PyVal.truthy]

/-- Witness for the amended C10 at the concrete configuration. -/
theorem emptyPutAllGetAllCacheService_witness :
    cfgEx.last_sync_key ≠ cfgEx.airports_data_key ∧
    (cs_get_airports_data cfgEx (cs_cache_airports_data cfgEx [] none ⟨[], []⟩).2).1 = none := by
  have hk : cfgEx.last_sync_key ≠ cfgEx.airports_data_key := by decide
  exact ⟨hk, (emptyPutAllGetAllCacheService cfgEx none [] hk).2⟩
